import Mathlib

/-!
Shallow embedding of the solitaire engine (final variant of the repository's
`App` component): card/slot data model, deck construction and Fisher-Yates
shuffling, layout initialization, the move validators `canDropOnTableau` and
`canDropOnFoundation`, the draw handler `handleDrawCard`, the drag-end handler
`handleDragEnd`, the win detector `checkWinCondition`, and the surrounding
application session (win flag, alert, affordance suppression).

Randomness (`Math.random()`) is modelled by a parameter `rnd : Nat → Nat`:
at loop index `i`, `Math.floor(Math.random() * (i + 1))` is a value in
`[0, i]`, rendered here as `rnd i % (i + 1)`.

JavaScript runtime type errors (dereferencing a field of `undefined`) are
modelled by `Except Unit`: `.error ()` marks a path on which the source code
throws a `TypeError` and no new state is committed.
-/

inductive Suit where
  | hearts
  | diamonds
  | clubs
  | spades
deriving DecidableEq

inductive Rank where
  | A
  | n2
  | n3
  | n4
  | n5
  | n6
  | n7
  | n8
  | n9
  | n10
  | J
  | Q
  | K
deriving DecidableEq

/-- A card. The JS `id` field is the string `rank-suit`, fully determined by
`rank` and `suit`, so it is not carried separately: card identity is the
`(rank, suit)` pair. -/
structure Card where
  rank : Rank
  suit : Suit
  faceUp : Bool
deriving DecidableEq

/-- A slot record, as produced by `initializeSlots`. -/
structure Slot where
  id : Nat
  cards : List Card
  isDropTarget : Bool
  isDraggable : Bool
deriving DecidableEq

/-- `const SUITS = ["hearts", "diamonds", "clubs", "spades"]` -/
def SUITS : List Suit := [.hearts, .diamonds, .clubs, .spades]

/-- `const RANKS = ["A", "2", ..., "10", "J", "Q", "K"]` -/
def RANKS : List Rank :=
  [.A, .n2, .n3, .n4, .n5, .n6, .n7, .n8, .n9, .n10, .J, .Q, .K]

/-- The deck as built by the two nested `for` loops of `createDeck`, before
the shuffle: for each suit in `SUITS`, for each rank in `RANKS`, a face-down
card is pushed. -/
def orderedDeck : List Card :=
  SUITS.flatMap fun suit => RANKS.map fun rank => { rank := rank, suit := suit, faceUp := false }

/-- Simultaneous-assignment swap `[a[i], a[j]] = [a[j], a[i]]` on a list.
When either index is out of range the list is returned unchanged (the
shuffle loops below only ever use in-range indices). -/
def listSwap {α : Type} (l : List α) (i j : Nat) : List α :=
  match l[i]?, l[j]? with
  | some a, some b => (l.set i b).set j a
  | _, _ => l

/-- The Fisher-Yates loop `for (let i = len - 1; i > 0; i--)`: at loop
counter `i + 1` the element at `i + 1` is swapped with the element at
`j = Math.floor(Math.random() * (i + 2))`, modelled as `rnd (i + 1) % (i + 2)`,
then the loop continues with counter `i`; the loop stops once the counter
reaches 0. -/
def shuffleLoop {α : Type} (rnd : Nat → Nat) : Nat → List α → List α
  | 0, l => l
  | i + 1, l => shuffleLoop rnd i (listSwap l (i + 1) (rnd (i + 1) % (i + 2)))

/-- In-place Fisher-Yates shuffle, as used by `createDeck` and by the
waste-recycling branch of `handleDrawCard`. -/
def shuffle {α : Type} (rnd : Nat → Nat) (l : List α) : List α :=
  shuffleLoop rnd (l.length - 1) l

/-- `createDeck()`: build the ordered 52-card deck, then shuffle it. -/
def createDeck (rnd : Nat → Nat) : List Card :=
  shuffle rnd orderedDeck

/-- `const tableauCounts = { 7: 1, 8: 2, ..., 13: 7 }`; `none` models an
absent key (a falsy lookup). -/
def tableauCounts (index : Nat) : Option Nat :=
  if 7 ≤ index ∧ index ≤ 13 then some (index - 6) else none

/-- The running mutable `cardIndex` of `initializeSlots`, rendered as a
prefix sum: the value of `cardIndex` just before slot `index` is processed
equals the total count dealt to slots `0, ..., index - 1`. -/
def tableauOffset (index : Nat) : Nat :=
  ((List.range index).map fun k => (tableauCounts k).getD 0).sum

/-- The `.map((card, i, arr) => ({ ...card, faceUp: i === arr.length - 1 }))`
of `initializeSlots`: every card face-down except the last, which is
face-up. -/
def faceUpLast : List Card → List Card
  | [] => []
  | [c] => [{ c with faceUp := true }]
  | c :: c' :: rest => { c with faceUp := false } :: faceUpLast (c' :: rest)

/-- One slot record of the `Array.from({ length: 14 }, (_, index) => ...)`
pass of `initializeSlots`: tableau slots (7-13) receive the deck segment
`deck.slice(cardIndex, cardIndex + count)` with only the last card face-up;
`isDropTarget: ![0, 1, 2].includes(index)`; `isDraggable: index > 0`. -/
def mkSlot (deck : List Card) (index : Nat) : Slot :=
  let cards : List Card :=
    match tableauCounts index with
    | some count => faceUpLast ((deck.drop (tableauOffset index)).take count)
    | none => []
  { id := index
    cards := cards
    isDropTarget := !([0, 1, 2].contains index)
    isDraggable := decide (0 < index) }

/-- `initializeSlots()`: build the 14 slots, then the second `.map` pass puts
the remaining cards `deck.slice(cardIndex)` (with `cardIndex = 28` after the
deal) into slot 0. -/
def initializeSlots (rnd : Nat → Nat) : List Slot :=
  let deck := createDeck rnd
  ((List.range 14).map (mkSlot deck)).map fun slot =>
    if slot.id == 0 then { slot with cards := deck.drop (tableauOffset 14) } else slot

/-- `const RANK_ORDER = ["A", "2", ..., "J", "Q", "K"]` -/
def RANK_ORDER : List Rank :=
  [.A, .n2, .n3, .n4, .n5, .n6, .n7, .n8, .n9, .n10, .J, .Q, .K]

/-- `getRankIndex(rank)`: `RANK_ORDER.indexOf(rank)`, a JS number (here `Int`,
since the tableau rule compares against `topRankIndex - 1`, which can be
`-1`). -/
def getRankIndex (rank : Rank) : Int :=
  (RANK_ORDER.indexOf rank : Nat)

inductive CardColor where
  | red
  | black
deriving DecidableEq

/-- `const RED_SUITS = ["hearts", "diamonds"]` -/
def RED_SUITS : List Suit := [.hearts, .diamonds]

/-- `getCardColor(suit)`: red if the suit is in `RED_SUITS`, else black. -/
def getCardColor (suit : Suit) : CardColor :=
  if RED_SUITS.contains suit then .red else .black

/-- `canDropOnTableau(tableauCards, cardToDrop)`. `getLast? = none` is the
`tableauCards.length === 0` branch; otherwise `topCard` is
`tableauCards[tableauCards.length - 1]`. -/
def canDropOnTableau (tableauCards : List Card) (cardToDrop : Card) : Bool :=
  match tableauCards.getLast? with
  | none => cardToDrop.rank == Rank.K
  | some topCard =>
    if getCardColor topCard.suit == getCardColor cardToDrop.suit then false
    else getRankIndex cardToDrop.rank == getRankIndex topCard.rank - 1

/-- `canDropOnFoundation(foundationCards, cardToDrop)`. `getLast? = none` is
the `foundationCards.length === 0` branch; otherwise `topCard` is
`foundationCards[foundationCards.length - 1]`. -/
def canDropOnFoundation (foundationCards : List Card) (cardToDrop : Card) : Bool :=
  match foundationCards.getLast? with
  | none => cardToDrop.rank == Rank.A
  | some topCard =>
    if topCard.suit != cardToDrop.suit then false
    else getRankIndex cardToDrop.rank == getRankIndex topCard.rank + 1

/-- `checkWinCondition(slots)`: every foundation slot (3-6) holds exactly 13
cards. The `none` branch is unreachable on the app's 14-slot state (there
the JS code would throw on `slots[slotId].cards`). -/
def checkWinCondition (slots : List Slot) : Bool :=
  [3, 4, 5, 6].all fun slotId =>
    match slots[slotId]? with
    | some slot => slot.cards.length == 13
    | none => false

/-- `handleDrawCard`: draw one card from stock to waste, or recycle the
shuffled waste back into stock. The fallback branch (fewer than 2 slots) is
unreachable on the app's 14-slot state. -/
def handleDrawCard (rnd : Nat → Nat) (prevSlots : List Slot) : List Slot :=
  match prevSlots[0]?, prevSlots[1]? with
  | some stockSlot, some wasteSlot =>
    if stockSlot.cards.length = 0 then
      if wasteSlot.cards.length = 0 then prevSlots
      else
        -- waste cards reset to face-down, shuffled, moved to stock; waste cleared
        let cardsToShuffle :=
          shuffle rnd (wasteSlot.cards.map fun card => { card with faceUp := false })
        (prevSlots.set 0 { stockSlot with cards := cardsToShuffle }).set 1
          { wasteSlot with cards := [] }
    else
      match stockSlot.cards.getLast? with
      | some top =>
        -- `{ ...newSlots[0].cards.pop(), faceUp: true }` pushed onto slot 1
        let cardToMove := { top with faceUp := true }
        (prevSlots.set 0 { stockSlot with cards := stockSlot.cards.dropLast }).set 1
          { wasteSlot with cards := wasteSlot.cards ++ [cardToMove] }
      | none => prevSlots   -- unreachable: the stock is non-empty here
  | _, _ => prevSlots

/-- The drag source payload `source.data`: `slotId` and `cardIndex`
(`slotId` is `none` when `source.data?.slotId` is `undefined`). -/
structure DragSource where
  slotId : Option Nat
  cardIndex : Nat
deriving DecidableEq

/-- The drop target payload `target.data`: only `slotId` is read. -/
structure DragTarget where
  slotId : Option Nat
deriving DecidableEq

/-- `const foundationSlots = [3, 4, 5, 6]` -/
def foundationSlots : List Nat := [3, 4, 5, 6]

/-- `const tableauSlots = [7, 8, 9, 10, 11, 12, 13]` -/
def tableauSlots : List Nat := [7, 8, 9, 10, 11, 12, 13]

/-- The flip of the newly exposed source top card: if the last remaining
source card is face-down, it is set face-up. -/
def flipLastFaceUp (cards : List Card) : List Card :=
  match cards.getLast? with
  | none => cards
  | some topCard =>
    if !topCard.faceUp then cards.dropLast ++ [{ topCard with faceUp := true }]
    else cards

/-- The committed part of `handleDragEnd`, after all validation has passed:
`splice(sourceCardIndex)` removes the dragged run from the source, the run is
re-marked face-up and pushed onto the target, and if the source slot is a
tableau slot (7-13) that stayed non-empty, its new top card is flipped
face-up. `sourceSlotId ≠ targetSlotId` at every call site, so the two `set`
updates commute with the reads above them exactly as the JS in-place
mutations do. -/
def commitMove (prevSlots : List Slot) (sourceSlot targetSlot : Slot)
    (sourceSlotId sourceCardIndex targetSlotId : Nat) : List Slot :=
  let cardsToMove := sourceSlot.cards.drop sourceCardIndex
  let remaining := sourceSlot.cards.take sourceCardIndex
  let cardsToMoveWithFaceUp := cardsToMove.map fun card => { card with faceUp := true }
  let newSourceCards :=
    if 7 ≤ sourceSlotId ∧ sourceSlotId ≤ 13 ∧ 0 < remaining.length then
      flipLastFaceUp remaining
    else remaining
  (prevSlots.set sourceSlotId { sourceSlot with cards := newSourceCards }).set targetSlotId
    { targetSlot with cards := targetSlot.cards ++ cardsToMoveWithFaceUp }

/-- `handleDragEnd`: guard chain (missing source/target, missing ids, equal
ids, foundation-to-foundation), then per-category validation, then commit.
`.error ()` marks the paths on which the JS code throws a `TypeError`
(indexing a non-existent slot, or passing `cardsToMove[0] = undefined` into
`canDropOnTableau`); on those paths no state is committed. -/
def handleDragEnd (prevSlots : List Slot) (source : Option DragSource)
    (target : Option DragTarget) : Except Unit (List Slot) :=
  match source, target with
  | none, _ => .ok prevSlots
  | _, none => .ok prevSlots
  | some src, some tgt =>
    match src.slotId, tgt.slotId with
    | none, _ => .ok prevSlots
    | _, none => .ok prevSlots
    | some sourceSlotId, some targetSlotId =>
      if sourceSlotId = targetSlotId then .ok prevSlots
      else
        let sourceIsFoundation := foundationSlots.contains sourceSlotId
        let targetIsFoundation := foundationSlots.contains targetSlotId
        if sourceIsFoundation && targetIsFoundation then .ok prevSlots
        else
          match prevSlots[sourceSlotId]?, prevSlots[targetSlotId]? with
          | some sourceSlot, some targetSlot =>
            let cardsToMove := sourceSlot.cards.drop src.cardIndex
            if targetIsFoundation then
              match cardsToMove with
              | [c] =>
                if canDropOnFoundation targetSlot.cards c then
                  .ok (commitMove prevSlots sourceSlot targetSlot sourceSlotId
                    src.cardIndex targetSlotId)
                else .ok prevSlots
              | _ => .ok prevSlots   -- `cardsToMove.length !== 1`
            else if tableauSlots.contains targetSlotId then
              match cardsToMove.head? with
              | some c =>
                if canDropOnTableau targetSlot.cards c then
                  .ok (commitMove prevSlots sourceSlot targetSlot sourceSlotId
                    src.cardIndex targetSlotId)
                else .ok prevSlots
              | none => .error ()   -- `canDropOnTableau(..., undefined)` throws
            else
              .ok (commitMove prevSlots sourceSlot targetSlot sourceSlotId
                src.cardIndex targetSlotId)
          | _, _ => .error ()   -- `slots[id]` is undefined: dereference throws

/-- The card list of slot `i` (empty when `i` is out of range); an observer
used only to state theorems. -/
def cardsAt (slots : List Slot) (i : Nat) : List Card :=
  match slots[i]? with
  | some slot => slot.cards
  | none => []

/-- The identity key of a card: its `(rank, suit)` pair (the JS `id` string). -/
def cardKey (card : Card) : Rank × Suit :=
  (card.rank, card.suit)

/-- The multiset of card keys held by one slot. -/
def slotKeys (slot : Slot) : Multiset (Rank × Suit) :=
  (slot.cards.map cardKey : List (Rank × Suit))

/-- The multiset of card keys held across a whole slot list. -/
def cardKeys (slots : List Slot) : Multiset (Rank × Suit) :=
  (slots.map slotKeys).sum

/-- The 52-card universe: each (rank, suit) pair exactly once. -/
def deckUniverse : Multiset (Rank × Suit) :=
  (orderedDeck.map cardKey : List (Rank × Suit))

/-- Reachable engine states: the initial deal followed by any sequence of
draw calls and committed drag-end calls (rejected drag-ends return the state
unchanged, and error paths commit nothing, so neither changes the state). -/
inductive Reachable : List Slot → Prop
  | init (rnd : Nat → Nat) : Reachable (initializeSlots rnd)
  | draw (rnd : Nat → Nat) {s : List Slot} : Reachable s → Reachable (handleDrawCard rnd s)
  | drag {s s' : List Slot} {source : Option DragSource} {target : Option DragTarget} :
      Reachable s → handleDragEnd s source target = .ok s' → Reachable s'

/-- The `droppable` prop handed to `CardSlot` (and propagated as each card's
droppable-disabled flag): `!hasWon && slot.isDropTarget`. -/
def slotDroppable (hasWon : Bool) (slot : Slot) : Bool :=
  !hasWon && slot.isDropTarget

/-- The `draggable` prop handed to `CardSlot`: `!hasWon && slot.isDraggable`. -/
def slotDraggable (hasWon : Bool) (slot : Slot) : Bool :=
  !hasWon && slot.isDraggable

/-- The per-card drag affordance computed in `Card`:
`draggable && faceUp && (isTableauSlot || isTopCard)`. -/
def cardCanDrag (draggable : Bool) (slotId cardIndex stackSize : Nat) (faceUp : Bool) : Bool :=
  draggable && faceUp && (decide (7 ≤ slotId ∧ slotId ≤ 13) || cardIndex == stackSize - 1)

/-- The `App` component's session state: the slot list plus the `hasWon`
flag; `winAlerts` counts how many times the win alert has fired. -/
structure AppState where
  slots : List Slot
  hasWon : Bool
  winAlerts : Nat

/-- The `useEffect` that runs after every `slots` change:
`if (!hasWon && checkWinCondition(slots)) { setHasWon(true); alert(...) }`. -/
def winEffect (a : AppState) : AppState :=
  if !a.hasWon && checkWinCondition a.slots then
    { a with hasWon := true, winAlerts := a.winAlerts + 1 }
  else a

/-- External stimuli of one session step: a stock click or a drag-end. -/
inductive AppEvent where
  | draw (rnd : Nat → Nat)
  | dragEnd (source : Option DragSource) (target : Option DragTarget)

/-- One session step of `App`. Once `hasWon` is set, the stock's `onClick`
is detached and every slot's `droppable`/`draggable` prop is forced false, so
no draw and no drag can be initiated: both events are no-ops. On a thrown
drag-end (`.error`) the state updater aborts and no state is committed. -/
def appStep (a : AppState) : AppEvent → AppState
  | .draw rnd =>
    if a.hasWon then a
    else winEffect { a with slots := handleDrawCard rnd a.slots }
  | .dragEnd source target =>
    if a.hasWon then a
    else
      match handleDragEnd a.slots source target with
      | .ok s' => winEffect { a with slots := s' }
      | .error _ => a

/-- The initial session state: a fresh deal, not won, no alert fired. -/
def initApp (rnd : Nat → Nat) : AppState :=
  { slots := initializeSlots rnd, hasWon := false, winAlerts := 0 }

/-- Reachable session states of the `App` component. -/
inductive AppReachable : AppState → Prop
  | init (rnd : Nat → Nat) : AppReachable (initApp rnd)
  | step (e : AppEvent) {a : AppState} : AppReachable a → AppReachable (appStep a e)

/-- The spec's `rankIndex`: the 0-based position in the fixed order
A,2,3,...,10,J,Q,K. Written from the spec's words, to be compared with the
source's `getRankIndex`. -/
def specRankIndex : Rank → Nat
  | .A => 0
  | .n2 => 1
  | .n3 => 2
  | .n4 => 3
  | .n5 => 4
  | .n6 => 5
  | .n7 => 6
  | .n8 => 7
  | .n9 => 8
  | .n10 => 9
  | .J => 10
  | .Q => 11
  | .K => 12

/-- The spec's suit colors: hearts and diamonds red, clubs and spades black.
Written from the spec's words, to be compared with the source's
`getCardColor`. -/
def specSuitColor : Suit → CardColor
  | .hearts => .red
  | .diamonds => .red
  | .clubs => .black
  | .spades => .black

theorem getRankIndex_eq_specRankIndex (r : Rank) :
    getRankIndex r = (specRankIndex r : Int) := by
  cases r <;> rfl

theorem getCardColor_eq_specSuitColor (s : Suit) :
    getCardColor s = specSuitColor s := by
  cases s <;> rfl

/-- C3: `canDropOnFoundation(existingCards, candidateCard)` returns true if
and only if (existingCards is empty and candidateCard.rank = A) or
(existingCards is non-empty, candidateCard.suit equals the top card's suit,
and rankIndex(candidateCard) = rankIndex(topCard) + 1, rankIndex being the
0-based position in the order A,2,3,...,10,J,Q,K). -/
theorem canDropOnFoundation_spec (existingCards : List Card) (candidateCard : Card) :
    canDropOnFoundation existingCards candidateCard = true ↔
      (existingCards = [] ∧ candidateCard.rank = Rank.A) ∨
      (∃ topCard, existingCards.getLast? = some topCard ∧
        candidateCard.suit = topCard.suit ∧
        specRankIndex candidateCard.rank = specRankIndex topCard.rank + 1) := by
  simp only [canDropOnFoundation]
  split
  next heq =>
    rw [List.getLast?_eq_none_iff] at heq
    subst heq
    simp [beq_iff_eq]
  next topCard heq =>
    have hne : existingCards ≠ [] := by
      intro he
      rw [he] at heq
      simp at heq
    rw [getRankIndex_eq_specRankIndex, getRankIndex_eq_specRankIndex]
    constructor
    · intro hb
      split at hb
      · exact absurd hb (by simp)
      next hsuit =>
        rw [Bool.not_eq_true, bne_eq_false_iff_eq] at hsuit
        right
        refine ⟨topCard, heq, hsuit.symm, ?_⟩
        rw [beq_iff_eq] at hb
        exact_mod_cast hb
    · rintro (⟨he, _⟩ | ⟨top, htop, hsuit, hidx⟩)
      · exact absurd he hne
      · rw [heq] at htop
        injection htop with h
        subst h
        rw [if_neg (by simp [hsuit])]
        rw [beq_iff_eq]
        exact_mod_cast hidx

/-- C4: `canDropOnTableau(existingCards, candidateCard)` returns true if and
only if (existingCards is empty and candidateCard.rank = K) or
(existingCards is non-empty, the candidate's color differs from the top
card's color — hearts/diamonds red, clubs/spades black — and
rankIndex(candidateCard) = rankIndex(topCard) - 1, i.e.
rankIndex(candidateCard) + 1 = rankIndex(topCard)). -/
theorem canDropOnTableau_spec (existingCards : List Card) (candidateCard : Card) :
    canDropOnTableau existingCards candidateCard = true ↔
      (existingCards = [] ∧ candidateCard.rank = Rank.K) ∨
      (∃ topCard, existingCards.getLast? = some topCard ∧
        specSuitColor candidateCard.suit ≠ specSuitColor topCard.suit ∧
        specRankIndex candidateCard.rank + 1 = specRankIndex topCard.rank) := by
  simp only [canDropOnTableau]
  split
  next heq =>
    rw [List.getLast?_eq_none_iff] at heq
    subst heq
    simp [beq_iff_eq]
  next topCard heq =>
    have hne : existingCards ≠ [] := by
      intro he
      rw [he] at heq
      simp at heq
    rw [getRankIndex_eq_specRankIndex, getRankIndex_eq_specRankIndex,
      getCardColor_eq_specSuitColor, getCardColor_eq_specSuitColor]
    constructor
    · intro hb
      split at hb
      · exact absurd hb (by simp)
      next hcolor =>
        rw [Bool.not_eq_true, beq_eq_false_iff_ne] at hcolor
        right
        refine ⟨topCard, heq, fun hc => hcolor hc.symm, ?_⟩
        rw [beq_iff_eq] at hb
        omega
    · rintro (⟨he, _⟩ | ⟨top, htop, hcolor, hidx⟩)
      · exact absurd he hne
      · rw [heq] at htop
        injection htop with h
        subst h
        rw [if_neg (by simp; exact fun hc => hcolor hc.symm)]
        rw [beq_iff_eq]
        omega

theorem set_getElem_append_perm {α : Type} (l : List α) (i : Nat) (a : α) (h : i < l.length) :
    List.Perm (l.set i a ++ [l[i]]) (l ++ [a]) := by
  rw [List.set_eq_take_cons_drop a h]
  conv_rhs => rw [← List.take_append_drop i l, List.drop_eq_getElem_cons h]
  refine (List.perm_append_singleton _ _).trans ?_
  refine ((List.perm_middle).cons _).trans ?_
  refine (List.Perm.swap _ _ _).trans ?_
  refine ((List.perm_middle.symm).cons _).trans ?_
  exact (List.perm_append_singleton _ _).symm

theorem coe_set_add {α : Type} (l : List α) (i : Nat) (a : α) (h : i < l.length) :
    (↑(l.set i a) : Multiset α) + {l[i]} = (↑l : Multiset α) + {a} := by
  rw [← Multiset.coe_singleton l[i], ← Multiset.coe_singleton a, Multiset.coe_add,
    Multiset.coe_add, Multiset.coe_eq_coe]
  exact set_getElem_append_perm l i a h

theorem listSwap_coe {α : Type} (l : List α) (i j : Nat) :
    (↑(listSwap l i j) : Multiset α) = ↑l := by
  unfold listSwap
  split
  next a b ha hb =>
    obtain ⟨hi, hia⟩ := List.getElem?_eq_some_iff.mp ha
    obtain ⟨hj, hjb⟩ := List.getElem?_eq_some_iff.mp hb
    have hj' : j < (l.set i b).length := by simpa using hj
    have key1 : (↑((l.set i b).set j a) : Multiset α) + {(l.set i b)[j]} =
        (↑(l.set i b) : Multiset α) + {a} := coe_set_add _ j a hj'
    have hgetj : (l.set i b)[j] = b := by
      by_cases hij : i = j
      · subst hij
        simp
      · rw [List.getElem_set_ne hij]
        exact hjb
    have key2 : (↑(l.set i b) : Multiset α) + {a} = (↑l : Multiset α) + {b} := by
      have hkey := coe_set_add l i b hi
      rwa [hia] at hkey
    rw [hgetj] at key1
    have hfin : (↑((l.set i b).set j a) : Multiset α) + {b} = (↑l : Multiset α) + {b} := by
      rw [key1, key2]
    exact add_right_cancel hfin
  next => rfl

theorem shuffleLoop_coe {α : Type} (rnd : Nat → Nat) :
    ∀ (n : Nat) (l : List α), (↑(shuffleLoop rnd n l) : Multiset α) = ↑l
  | 0, _ => rfl
  | n + 1, l => by
    rw [shuffleLoop, shuffleLoop_coe rnd n, listSwap_coe]

theorem shuffle_coe {α : Type} (rnd : Nat → Nat) (l : List α) :
    (↑(shuffle rnd l) : Multiset α) = ↑l :=
  shuffleLoop_coe rnd _ l

theorem shuffle_perm {α : Type} (rnd : Nat → Nat) (l : List α) :
    List.Perm (shuffle rnd l) l :=
  Multiset.coe_eq_coe.mp (shuffle_coe rnd l)

theorem sum_set_add {M : Type} [AddCommMonoid M] (l : List M) (i : Nat) (a : M)
    (h : i < l.length) : (l.set i a).sum + l[i] = l.sum + a := by
  rw [List.set_eq_take_cons_drop a h]
  conv_rhs => rw [← List.take_append_drop i l, List.drop_eq_getElem_cons h]
  rw [List.sum_append, List.sum_append, List.sum_cons, List.sum_cons]
  simp only [add_comm, add_left_comm, add_assoc]

theorem cardKeys_set (slots : List Slot) (i : Nat) (x : Slot) (h : i < slots.length) :
    cardKeys (slots.set i x) + slotKeys slots[i] = cardKeys slots + slotKeys x := by
  unfold cardKeys
  rw [List.map_set]
  have h' : i < (slots.map slotKeys).length := by simpa using h
  have hsum := sum_set_add (slots.map slotKeys) i (slotKeys x) h'
  rwa [List.getElem_map] at hsum

theorem cardKeys_set_set (s : List Slot) (i j : Nat) (x y : Slot)
    (hi : i < s.length) (hj : j < s.length) (hij : i ≠ j) :
    cardKeys ((s.set i x).set j y) + slotKeys s[i] + slotKeys s[j] =
      cardKeys s + slotKeys x + slotKeys y := by
  have hj' : j < (s.set i x).length := by simpa using hj
  have eqA := cardKeys_set (s.set i x) j y hj'
  have eqB := cardKeys_set s i x hi
  have hg : (s.set i x)[j] = s[j] := List.getElem_set_ne hij hj'
  rw [hg] at eqA
  refine Multiset.ext.mpr fun a => ?_
  have cA := congrArg (Multiset.count a) eqA
  have cB := congrArg (Multiset.count a) eqB
  simp only [Multiset.count_add] at cA cB ⊢
  omega

theorem map_cardKey_faceUpLast : ∀ (cards : List Card),
    (faceUpLast cards).map cardKey = cards.map cardKey
  | [] => rfl
  | [_] => rfl
  | c :: c' :: rest => by
    rw [faceUpLast]
    simp only [List.map_cons]
    rw [map_cardKey_faceUpLast (c' :: rest)]
    simp [cardKey]

theorem map_cardKey_setFaceUp (l : List Card) (b : Bool) :
    (l.map fun c => { c with faceUp := b }).map cardKey = l.map cardKey := by
  rw [List.map_map]
  rfl

theorem coe_map_cardKey_shuffle (rnd : Nat → Nat) (l : List Card) :
    (↑((shuffle rnd l).map cardKey) : Multiset (Rank × Suit)) = ↑(l.map cardKey) := by
  rw [← Multiset.map_coe, ← Multiset.map_coe, shuffle_coe]

theorem map_cardKey_flipLastFaceUp (cards : List Card) :
    (flipLastFaceUp cards).map cardKey = cards.map cardKey := by
  unfold flipLastFaceUp
  split
  next => rfl
  next topCard heq =>
    split
    next =>
      conv_rhs => rw [← List.dropLast_append_getLast? topCard heq]
      rw [List.map_append, List.map_append]
      rfl
    next => rfl

theorem cardKeys_handleDrawCard (rnd : Nat → Nat) (s : List Slot) :
    cardKeys (handleDrawCard rnd s) = cardKeys s := by
  unfold handleDrawCard
  split
  next stockSlot wasteSlot h0 h1 =>
    obtain ⟨hi0, hs0⟩ := List.getElem?_eq_some_iff.mp h0
    obtain ⟨hi1, hs1⟩ := List.getElem?_eq_some_iff.mp h1
    split
    next hstock =>
      split
      next hwaste => rfl
      next hwaste =>
        have main := cardKeys_set_set s 0 1
          { stockSlot with
            cards := shuffle rnd (wasteSlot.cards.map fun card => { card with faceUp := false }) }
          { wasteSlot with cards := [] } hi0 hi1 (by omega)
        have hempty : stockSlot.cards = [] := List.length_eq_zero.mp hstock
        have h00 : slotKeys stockSlot = 0 := by
          unfold slotKeys
          rw [hempty]
          rfl
        have hw0 : slotKeys { wasteSlot with cards := ([] : List Card) } = 0 := rfl
        have hkeys : slotKeys { stockSlot with
            cards := shuffle rnd (wasteSlot.cards.map fun card => { card with faceUp := false }) } =
            slotKeys wasteSlot := by
          unfold slotKeys
          rw [coe_map_cardKey_shuffle, map_cardKey_setFaceUp]
        rw [hs0, hs1, h00, hw0, hkeys] at main
        refine Multiset.ext.mpr fun a => ?_
        have cm := congrArg (Multiset.count a) main
        simp only [Multiset.count_add] at cm ⊢
        omega
    next hstockne =>
      split
      next top heq =>
        have hdecomp : stockSlot.cards.dropLast ++ [top] = stockSlot.cards :=
          List.dropLast_append_getLast? top heq
        have e0 : slotKeys stockSlot =
            slotKeys { stockSlot with cards := stockSlot.cards.dropLast } + {cardKey top} := by
          unfold slotKeys
          conv_lhs => rw [← hdecomp]
          rw [List.map_append, ← Multiset.coe_add]
          simp
        have e1 : slotKeys { wasteSlot with
            cards := wasteSlot.cards ++ [{ top with faceUp := true }] } =
            slotKeys wasteSlot + {cardKey top} := by
          unfold slotKeys
          rw [List.map_append, ← Multiset.coe_add]
          simp [cardKey]
        have main := cardKeys_set_set s 0 1
          { stockSlot with cards := stockSlot.cards.dropLast }
          { wasteSlot with cards := wasteSlot.cards ++ [{ top with faceUp := true }] }
          hi0 hi1 (by omega)
        rw [hs0, hs1, e0, e1] at main
        refine Multiset.ext.mpr fun a => ?_
        have cm := congrArg (Multiset.count a) main
        simp only [Multiset.count_add] at cm ⊢
        omega
      next heq => rfl
  next => rfl

theorem commitMove_eq (prevSlots : List Slot) (sourceSlot targetSlot : Slot)
    (sourceSlotId sourceCardIndex targetSlotId : Nat) :
    commitMove prevSlots sourceSlot targetSlot sourceSlotId sourceCardIndex targetSlotId =
      (prevSlots.set sourceSlotId
        { sourceSlot with cards :=
            (if 7 ≤ sourceSlotId ∧ sourceSlotId ≤ 13 ∧
                0 < (sourceSlot.cards.take sourceCardIndex).length then
              flipLastFaceUp (sourceSlot.cards.take sourceCardIndex)
            else sourceSlot.cards.take sourceCardIndex) }).set targetSlotId
        { targetSlot with cards := targetSlot.cards ++
            (sourceSlot.cards.drop sourceCardIndex).map fun card => { card with faceUp := true } } :=
  rfl

theorem cardKeys_commitMove (s : List Slot) (srcId idx tgtId : Nat)
    (hi : srcId < s.length) (hj : tgtId < s.length) (hij : srcId ≠ tgtId) :
    cardKeys (commitMove s s[srcId] s[tgtId] srcId idx tgtId) = cardKeys s := by
  rw [commitMove_eq]
  have main := cardKeys_set_set s srcId tgtId
    { s[srcId] with cards :=
        (if 7 ≤ srcId ∧ srcId ≤ 13 ∧ 0 < (s[srcId].cards.take idx).length then
          flipLastFaceUp (s[srcId].cards.take idx)
        else s[srcId].cards.take idx) }
    { s[tgtId] with cards :=
        s[tgtId].cards ++ (s[srcId].cards.drop idx).map fun card => { card with faceUp := true } }
    hi hj hij
  have k1 : slotKeys
      { s[srcId] with cards :=
        (if 7 ≤ srcId ∧ srcId ≤ 13 ∧ 0 < (s[srcId].cards.take idx).length then
          flipLastFaceUp (s[srcId].cards.take idx)
        else s[srcId].cards.take idx) } =
      (↑((s[srcId].cards.take idx).map cardKey) : Multiset (Rank × Suit)) := by
    unfold slotKeys
    split
    next => rw [map_cardKey_flipLastFaceUp]
    next => rfl
  have k2 : slotKeys
      { s[tgtId] with cards :=
        s[tgtId].cards ++ (s[srcId].cards.drop idx).map fun card => { card with faceUp := true } } =
      slotKeys s[tgtId] + (↑((s[srcId].cards.drop idx).map cardKey) : Multiset (Rank × Suit)) := by
    unfold slotKeys
    rw [List.map_append, ← Multiset.coe_add, map_cardKey_setFaceUp]
  have k3 : slotKeys s[srcId] =
      (↑((s[srcId].cards.take idx).map cardKey) : Multiset (Rank × Suit)) +
      (↑((s[srcId].cards.drop idx).map cardKey) : Multiset (Rank × Suit)) := by
    unfold slotKeys
    conv_lhs => rw [← List.take_append_drop idx s[srcId].cards]
    rw [List.map_append, ← Multiset.coe_add]
  rw [k1, k2, k3] at main
  refine Multiset.ext.mpr fun a => ?_
  have cm := congrArg (Multiset.count a) main
  simp only [Multiset.count_add] at cm ⊢
  omega

theorem cardKeys_handleDragEnd {s s' : List Slot} {source : Option DragSource}
    {target : Option DragTarget} (h : handleDragEnd s source target = .ok s') :
    cardKeys s' = cardKeys s := by
  unfold handleDragEnd at h
  dsimp only at h
  split at h
  next => rw [← Except.ok.inj h]
  next => rw [← Except.ok.inj h]
  next src tgt =>
    split at h
    next => rw [← Except.ok.inj h]
    next => rw [← Except.ok.inj h]
    next =>
      split at h
      next => rw [← Except.ok.inj h]
      next hne =>
        split at h
        next => rw [← Except.ok.inj h]
        next hff =>
          split at h
          next sourceSlot targetSlot hg0 hg1 =>
            obtain ⟨hi, hieq⟩ := List.getElem?_eq_some_iff.mp hg0
            obtain ⟨hj, hjeq⟩ := List.getElem?_eq_some_iff.mp hg1
            split at h
            next hfound =>
              split at h
              next c hone =>
                split at h
                next hcan =>
                  rw [← Except.ok.inj h, ← hieq, ← hjeq]
                  exact cardKeys_commitMove s _ _ _ hi hj hne
                next => rw [← Except.ok.inj h]
              next => rw [← Except.ok.inj h]
            next hnotfound =>
              split at h
              next htab =>
                split at h
                next c hhead =>
                  split at h
                  next hcan =>
                    rw [← Except.ok.inj h, ← hieq, ← hjeq]
                    exact cardKeys_commitMove s _ _ _ hi hj hne
                  next => rw [← Except.ok.inj h]
                next => simp at h
              next =>
                rw [← Except.ok.inj h, ← hieq, ← hjeq]
                exact cardKeys_commitMove s _ _ _ hi hj hne
          next => simp at h

/-- Evaluated form of the initial deal: slot 0 holds `deck.slice(28)`, slots
1-6 are empty, tableau slot `7 + k` holds the deck segment of length `k + 1`
starting at offset `0, 1, 3, 6, 10, 15, 21`, with only its last card
face-up. -/
theorem initializeSlots_eq (rnd : Nat → Nat) :
    initializeSlots rnd =
      [ { id := 0, cards := (createDeck rnd).drop 28, isDropTarget := false, isDraggable := false },
        { id := 1, cards := [], isDropTarget := false, isDraggable := true },
        { id := 2, cards := [], isDropTarget := false, isDraggable := true },
        { id := 3, cards := [], isDropTarget := true, isDraggable := true },
        { id := 4, cards := [], isDropTarget := true, isDraggable := true },
        { id := 5, cards := [], isDropTarget := true, isDraggable := true },
        { id := 6, cards := [], isDropTarget := true, isDraggable := true },
        { id := 7, cards := faceUpLast ((createDeck rnd).take 1), isDropTarget := true,
          isDraggable := true },
        { id := 8, cards := faceUpLast (((createDeck rnd).drop 1).take 2), isDropTarget := true,
          isDraggable := true },
        { id := 9, cards := faceUpLast (((createDeck rnd).drop 3).take 3), isDropTarget := true,
          isDraggable := true },
        { id := 10, cards := faceUpLast (((createDeck rnd).drop 6).take 4), isDropTarget := true,
          isDraggable := true },
        { id := 11, cards := faceUpLast (((createDeck rnd).drop 10).take 5), isDropTarget := true,
          isDraggable := true },
        { id := 12, cards := faceUpLast (((createDeck rnd).drop 15).take 6), isDropTarget := true,
          isDraggable := true },
        { id := 13, cards := faceUpLast (((createDeck rnd).drop 21).take 7), isDropTarget := true,
          isDraggable := true } ] := by
  unfold initializeSlots
  rw [show List.range 14 = [0,1,2,3,4,5,6,7,8,9,10,11,12,13] from by rfl]
  simp [mkSlot, tableauCounts, tableauOffset, List.range_succ]

theorem take_28_decomp (l : List Card) :
    l.take 28 = l.take 1 ++ ((l.drop 1).take 2 ++ ((l.drop 3).take 3 ++ ((l.drop 6).take 4 ++
      ((l.drop 10).take 5 ++ ((l.drop 15).take 6 ++ (l.drop 21).take 7))))) := by
  rw [show (28 : Nat) = 1 + (2 + (3 + (4 + (5 + (6 + 7))))) from rfl]
  rw [List.take_add, List.take_add, List.take_add, List.take_add, List.take_add, List.take_add]
  simp [List.drop_drop]

theorem cardKeys_initializeSlots (rnd : Nat → Nat) :
    cardKeys (initializeSlots rnd) = deckUniverse := by
  rw [initializeSlots_eq]
  have hperm : (↑((createDeck rnd).map cardKey) : Multiset (Rank × Suit)) =
      ↑(orderedDeck.map cardKey) := coe_map_cardKey_shuffle rnd orderedDeck
  have hdec : (createDeck rnd).map cardKey =
      ((createDeck rnd).take 1).map cardKey ++
      (((createDeck rnd).drop 1).take 2).map cardKey ++
      (((createDeck rnd).drop 3).take 3).map cardKey ++
      (((createDeck rnd).drop 6).take 4).map cardKey ++
      (((createDeck rnd).drop 10).take 5).map cardKey ++
      (((createDeck rnd).drop 15).take 6).map cardKey ++
      (((createDeck rnd).drop 21).take 7).map cardKey ++
      ((createDeck rnd).drop 28).map cardKey := by
    conv_lhs => rw [← List.take_append_drop 28 (createDeck rnd), take_28_decomp]
    simp [List.map_append]
  refine Multiset.ext.mpr fun a => ?_
  have hc := congrArg (fun l : List (Rank × Suit) => @List.count _ (instBEqOfDecidableEq) a l) hdec
  simp only [List.count_append] at hc
  have hp := congrArg (Multiset.count a) hperm
  simp only [Multiset.coe_count] at hp
  simp only [cardKeys, deckUniverse, List.map_cons, List.map_nil, List.sum_cons, List.sum_nil,
    slotKeys, map_cardKey_faceUpLast, Multiset.count_add, Multiset.coe_count, Multiset.coe_nil,
    Multiset.count_zero, add_zero]
  omega

theorem count_deckUniverse (a : Rank × Suit) : Multiset.count a deckUniverse = 1 := by
  obtain ⟨r, su⟩ := a
  cases r <;> cases su <;> decide

/-- C1: for every reachable game state, the multiset of card keys across all
14 slots equals the 52-card universe, each (rank, suit) pair appearing
exactly once, and this multiset is unchanged by every draw call and every
drag-end call (committed or rejected: a non-committing drag-end returns the
state itself, so only `.ok` results can change it). -/
theorem card_conservation (s : List Slot) (h : Reachable s) :
    cardKeys s = deckUniverse ∧
    (∀ p : Rank × Suit, Multiset.count p (cardKeys s) = 1) ∧
    (∀ rnd, cardKeys (handleDrawCard rnd s) = deckUniverse) ∧
    (∀ source target s', handleDragEnd s source target = .ok s' → cardKeys s' = deckUniverse) := by
  have base : cardKeys s = deckUniverse := by
    induction h with
    | init rnd => exact cardKeys_initializeSlots rnd
    | draw rnd _ ih =>
      rw [cardKeys_handleDrawCard]
      exact ih
    | drag _ hok ih =>
      rw [cardKeys_handleDragEnd hok]
      exact ih
  refine ⟨base, ?_, ?_, ?_⟩
  · intro p
    rw [base]
    exact count_deckUniverse p
  · intro rnd
    rw [cardKeys_handleDrawCard]
    exact base
  · intro source target s' hok
    rw [cardKeys_handleDragEnd hok]
    exact base

/-- Witness for C1 at the concrete deal dealt by the constant-zero random
stream. -/
theorem card_conservation_witness :
    cardKeys (initializeSlots (fun _ => 0)) = deckUniverse ∧
    (∀ p : Rank × Suit, Multiset.count p (cardKeys (initializeSlots (fun _ => 0))) = 1) ∧
    (∀ rnd, cardKeys (handleDrawCard rnd (initializeSlots (fun _ => 0))) = deckUniverse) ∧
    (∀ source target s', handleDragEnd (initializeSlots (fun _ => 0)) source target = .ok s' →
      cardKeys s' = deckUniverse) :=
  card_conservation _ (Reachable.init (fun _ => 0))

/-- The validation-failure causes of a drag-end input, as enumerated by the
spec: missing source/target or missing slot id, source id equal to target
id, foundation-to-foundation, a run of length other than 1 dropped on a
Foundation, a failed `canDropOnFoundation` check, or a failed
`canDropOnTableau` check (the slot-indexed causes require the named slots to
exist, which on the app's 14-slot states they always do). -/
def failsValidation (s : List Slot) (source : Option DragSource)
    (target : Option DragTarget) : Prop :=
  source = none ∨ target = none ∨
  (∃ src, source = some src ∧ src.slotId = none) ∨
  (∃ tgt, target = some tgt ∧ tgt.slotId = none) ∨
  (∃ src tgt i, source = some src ∧ target = some tgt ∧
    src.slotId = some i ∧ tgt.slotId = some i) ∨
  (∃ src tgt i j, source = some src ∧ target = some tgt ∧
    src.slotId = some i ∧ tgt.slotId = some j ∧
    foundationSlots.contains i = true ∧ foundationSlots.contains j = true) ∨
  (∃ src tgt i j srcSlot tgtSlot, source = some src ∧ target = some tgt ∧
    src.slotId = some i ∧ tgt.slotId = some j ∧
    s[i]? = some srcSlot ∧ s[j]? = some tgtSlot ∧
    foundationSlots.contains j = true ∧
    (srcSlot.cards.drop src.cardIndex).length ≠ 1) ∨
  (∃ src tgt i j srcSlot tgtSlot c, source = some src ∧ target = some tgt ∧
    src.slotId = some i ∧ tgt.slotId = some j ∧
    s[i]? = some srcSlot ∧ s[j]? = some tgtSlot ∧
    foundationSlots.contains j = true ∧
    srcSlot.cards.drop src.cardIndex = [c] ∧
    canDropOnFoundation tgtSlot.cards c = false) ∨
  (∃ src tgt i j srcSlot tgtSlot c, source = some src ∧ target = some tgt ∧
    src.slotId = some i ∧ tgt.slotId = some j ∧
    s[i]? = some srcSlot ∧ s[j]? = some tgtSlot ∧
    tableauSlots.contains j = true ∧
    (srcSlot.cards.drop src.cardIndex).head? = some c ∧
    canDropOnTableau tgtSlot.cards c = false)

/-- C2: a drag-end input failing any validation step returns the prior state
itself — every slot's card sequence (cards, order, faceUp flags) is
untouched, with no partial mutation. -/
theorem rejection_atomicity (s : List Slot) (source : Option DragSource)
    (target : Option DragTarget) (h : failsValidation s source target) :
    handleDragEnd s source target = .ok s := by
  rcases h with h | h | ⟨src, rfl, hsl⟩ | ⟨tgt, rfl, htl⟩ |
    ⟨src, tgt, i, rfl, rfl, hsl, htl⟩ |
    ⟨src, tgt, i, j, rfl, rfl, hsl, htl, hfi, hfj⟩ |
    ⟨src, tgt, i, j, srcSlot, tgtSlot, rfl, rfl, hsl, htl, hsi, hsj, hfj, hlen⟩ |
    ⟨src, tgt, i, j, srcSlot, tgtSlot, c, rfl, rfl, hsl, htl, hsi, hsj, hfj, hdrop, hcan⟩ |
    ⟨src, tgt, i, j, srcSlot, tgtSlot, c, rfl, rfl, hsl, htl, hsi, hsj, htj, hhead, hcan⟩
  · subst h
    cases target <;> rfl
  · subst h
    cases source <;> rfl
  · cases target with
    | none => rfl
    | some tgt => simp [handleDragEnd, hsl]
  · cases source with
    | none => rfl
    | some src => cases hsrc : src.slotId <;> simp [handleDragEnd, hsrc, htl]
  · unfold handleDragEnd
    dsimp only
    rw [hsl, htl]
    dsimp only
    rw [if_pos rfl]
  · by_cases hij : i = j
    · subst hij
      unfold handleDragEnd
      dsimp only
      rw [hsl, htl]
      dsimp only
      rw [if_pos rfl]
    · unfold handleDragEnd
      dsimp only
      rw [hsl, htl]
      dsimp only
      rw [if_neg hij, if_pos (by rw [hfi, hfj]; rfl)]
  · by_cases hij : i = j
    · subst hij
      unfold handleDragEnd
      dsimp only
      rw [hsl, htl]
      dsimp only
      rw [if_pos rfl]
    · by_cases hfi : foundationSlots.contains i = true
      · unfold handleDragEnd
        dsimp only
        rw [hsl, htl]
        dsimp only
        rw [if_neg hij, if_pos (by rw [hfi, hfj]; rfl)]
      · have hfi' : i ∉ foundationSlots := by simpa using hfi
        unfold handleDragEnd
        dsimp only
        rw [hsl, htl]
        dsimp only
        rw [if_neg hij, if_neg (by simp [hfi']), hsi, hsj]
        dsimp only
        rw [if_pos hfj]
        rcases hx : srcSlot.cards.drop src.cardIndex with _ | ⟨c, rest⟩
        · rfl
        · cases rest with
          | nil => exact absurd (by rw [hx]; rfl) hlen
          | cons c2 rest2 => rfl
  · by_cases hij : i = j
    · subst hij
      unfold handleDragEnd
      dsimp only
      rw [hsl, htl]
      dsimp only
      rw [if_pos rfl]
    · by_cases hfi : foundationSlots.contains i = true
      · unfold handleDragEnd
        dsimp only
        rw [hsl, htl]
        dsimp only
        rw [if_neg hij, if_pos (by rw [hfi, hfj]; rfl)]
      · have hfi' : i ∉ foundationSlots := by simpa using hfi
        unfold handleDragEnd
        dsimp only
        rw [hsl, htl]
        dsimp only
        rw [if_neg hij, if_neg (by simp [hfi']), hsi, hsj]
        dsimp only
        rw [if_pos hfj, hdrop]
        dsimp only
        rw [if_neg (by simp [hcan])]
  · by_cases hij : i = j
    · subst hij
      unfold handleDragEnd
      dsimp only
      rw [hsl, htl]
      dsimp only
      rw [if_pos rfl]
    · have htj' : j = 7 ∨ j = 8 ∨ j = 9 ∨ j = 10 ∨ j = 11 ∨ j = 12 ∨ j = 13 := by
        simpa [tableauSlots] using htj
      have hfj' : j ∉ foundationSlots := by
        rcases htj' with rfl | rfl | rfl | rfl | rfl | rfl | rfl <;> simp [foundationSlots]
      unfold handleDragEnd
      dsimp only
      rw [hsl, htl]
      dsimp only
      rw [if_neg hij, if_neg (by simp [hfj']), hsi, hsj]
      dsimp only
      rw [if_neg (by simp [hfj']), if_pos htj, hhead]
      dsimp only
      rw [if_neg (by simp [hcan])]

/-- Witness for C2: a foundation-to-foundation drag on the initial deal is
rejected and returns the state unchanged. -/
theorem rejection_atomicity_witness :
    failsValidation (initializeSlots (fun _ => 0)) (some { slotId := some 3, cardIndex := 0 })
      (some { slotId := some 4 }) ∧
    handleDragEnd (initializeSlots (fun _ => 0)) (some { slotId := some 3, cardIndex := 0 })
      (some { slotId := some 4 }) = .ok (initializeSlots (fun _ => 0)) := by
  have hfail : failsValidation (initializeSlots (fun _ => 0))
      (some { slotId := some 3, cardIndex := 0 }) (some { slotId := some 4 }) := by
    refine Or.inr (Or.inr (Or.inr (Or.inr (Or.inr (Or.inl ?_)))))
    exact ⟨_, _, 3, 4, rfl, rfl, rfl, rfl, rfl, rfl⟩
  exact ⟨hfail, rejection_atomicity _ _ _ hfail⟩

/-- C5: draw-action case analysis. If Stock (slot 0) is non-empty, its last
card moves to the end of Waste (slot 1) with `faceUp := true` and every
other slot is unchanged. If Stock is empty and Waste is non-empty, Stock
becomes a permutation (multiset-equal list) of the former Waste cards all
reset face-down, and Waste empties; other slots unchanged. If both are
empty, the state is returned unchanged. -/
theorem draw_case_analysis (rnd : Nat → Nat) (s : List Slot) (h14 : s.length = 14) :
    (cardsAt s 0 = [] → cardsAt s 1 = [] → handleDrawCard rnd s = s) ∧
    (cardsAt s 0 = [] → cardsAt s 1 ≠ [] →
      cardsAt (handleDrawCard rnd s) 1 = [] ∧
      (↑(cardsAt (handleDrawCard rnd s) 0) : Multiset Card) =
        ↑((cardsAt s 1).map fun card => { card with faceUp := false }) ∧
      (∀ c ∈ cardsAt (handleDrawCard rnd s) 0, c.faceUp = false) ∧
      (∀ j, j ≠ 0 → j ≠ 1 → (handleDrawCard rnd s)[j]? = s[j]?)) ∧
    (∀ top, (cardsAt s 0).getLast? = some top →
      cardsAt (handleDrawCard rnd s) 0 = (cardsAt s 0).dropLast ∧
      cardsAt (handleDrawCard rnd s) 1 = cardsAt s 1 ++ [{ top with faceUp := true }] ∧
      (∀ j, j ≠ 0 → j ≠ 1 → (handleDrawCard rnd s)[j]? = s[j]?)) := by
  obtain ⟨s0, hs0⟩ : ∃ s0, s[0]? = some s0 := by
    cases hx : s[0]? with
    | none =>
      rw [List.getElem?_eq_none_iff] at hx
      omega
    | some s0 => exact ⟨s0, rfl⟩
  obtain ⟨s1, hs1⟩ : ∃ s1, s[1]? = some s1 := by
    cases hx : s[1]? with
    | none =>
      rw [List.getElem?_eq_none_iff] at hx
      omega
    | some s1 => exact ⟨s1, rfl⟩
  have hc0 : cardsAt s 0 = s0.cards := by
    unfold cardsAt
    rw [hs0]
  have hc1 : cardsAt s 1 = s1.cards := by
    unfold cardsAt
    rw [hs1]
  have hlen0 : (0 : Nat) < s.length := by omega
  have hlen1 : (1 : Nat) < s.length := by omega
  refine ⟨?_, ?_, ?_⟩
  · intro ha hb
    have ha' : s0.cards = [] := by rw [← hc0]; exact ha
    have hb' : s1.cards = [] := by rw [← hc1]; exact hb
    unfold handleDrawCard
    rw [hs0, hs1]
    dsimp only
    rw [if_pos (by rw [ha']; rfl), if_pos (by rw [hb']; rfl)]
  · intro ha hb
    have ha' : s0.cards = [] := by rw [← hc0]; exact ha
    have hb' : s1.cards ≠ [] := by rw [← hc1]; exact hb
    have hres : handleDrawCard rnd s =
        (s.set 0 { s0 with
          cards := shuffle rnd (s1.cards.map fun card => { card with faceUp := false }) }).set 1
          { s1 with cards := [] } := by
      unfold handleDrawCard
      rw [hs0, hs1]
      dsimp only
      rw [if_pos (by rw [ha']; rfl), if_neg (by simp [List.length_eq_zero, hb'])]
    have hlen1' : (1 : Nat) < (s.set 0 { s0 with
        cards := shuffle rnd (s1.cards.map fun card => { card with faceUp := false }) }).length := by
      simpa using hlen1
    refine ⟨?_, ?_, ?_, ?_⟩
    · rw [hres]
      unfold cardsAt
      rw [List.getElem?_set_self hlen1']
    · rw [hres]
      unfold cardsAt
      rw [List.getElem?_set_ne (by omega : (1 : Nat) ≠ 0), List.getElem?_set_self hlen0, hs1]
      dsimp only
      exact shuffle_coe rnd _
    · intro c hc
      rw [hres] at hc
      unfold cardsAt at hc
      rw [List.getElem?_set_ne (by omega : (1 : Nat) ≠ 0),
        List.getElem?_set_self hlen0] at hc
      dsimp only at hc
      have hmem : c ∈ s1.cards.map fun card => { card with faceUp := false } :=
        (shuffle_perm rnd _).mem_iff.mp hc
      obtain ⟨d, _, rfl⟩ := List.mem_map.mp hmem
      rfl
    · intro j hj0 hj1
      rw [hres]
      rw [List.getElem?_set_ne (by omega : (1 : Nat) ≠ j),
        List.getElem?_set_ne (by omega : (0 : Nat) ≠ j)]
  · intro top htop
    rw [hc0] at htop
    have hne : s0.cards ≠ [] := by
      intro he
      rw [he] at htop
      simp at htop
    have hres : handleDrawCard rnd s =
        (s.set 0 { s0 with cards := s0.cards.dropLast }).set 1
          { s1 with cards := s1.cards ++ [{ top with faceUp := true }] } := by
      unfold handleDrawCard
      rw [hs0, hs1]
      dsimp only
      rw [if_neg (by simp [List.length_eq_zero, hne]), htop]
    have hlen1' : (1 : Nat) <
        (s.set 0 { s0 with cards := s0.cards.dropLast }).length := by
      simpa using hlen1
    refine ⟨?_, ?_, ?_⟩
    · rw [hres]
      unfold cardsAt
      rw [List.getElem?_set_ne (by omega : (1 : Nat) ≠ 0), List.getElem?_set_self hlen0, hs0]
    · rw [hres]
      unfold cardsAt
      rw [List.getElem?_set_self hlen1', hs1]
    · intro j hj0 hj1
      rw [hres]
      rw [List.getElem?_set_ne (by omega : (1 : Nat) ≠ j),
        List.getElem?_set_ne (by omega : (0 : Nat) ≠ j)]

/-- Witness for C5 at the concrete deal dealt by the constant-zero random
stream. -/
theorem draw_case_analysis_witness :
    (initializeSlots (fun _ => 0)).length = 14 ∧
    ((cardsAt (initializeSlots (fun _ => 0)) 0 = [] →
        cardsAt (initializeSlots (fun _ => 0)) 1 = [] →
        handleDrawCard (fun _ => 0) (initializeSlots (fun _ => 0)) =
          initializeSlots (fun _ => 0)) ∧
      (cardsAt (initializeSlots (fun _ => 0)) 0 = [] →
        cardsAt (initializeSlots (fun _ => 0)) 1 ≠ [] →
        cardsAt (handleDrawCard (fun _ => 0) (initializeSlots (fun _ => 0))) 1 = [] ∧
        (↑(cardsAt (handleDrawCard (fun _ => 0) (initializeSlots (fun _ => 0))) 0) : Multiset Card) =
          ↑((cardsAt (initializeSlots (fun _ => 0)) 1).map fun card =>
            { card with faceUp := false }) ∧
        (∀ c ∈ cardsAt (handleDrawCard (fun _ => 0) (initializeSlots (fun _ => 0))) 0,
          c.faceUp = false) ∧
        (∀ j, j ≠ 0 → j ≠ 1 →
          (handleDrawCard (fun _ => 0) (initializeSlots (fun _ => 0)))[j]? =
            (initializeSlots (fun _ => 0))[j]?)) ∧
      (∀ top, (cardsAt (initializeSlots (fun _ => 0)) 0).getLast? = some top →
        cardsAt (handleDrawCard (fun _ => 0) (initializeSlots (fun _ => 0))) 0 =
          (cardsAt (initializeSlots (fun _ => 0)) 0).dropLast ∧
        cardsAt (handleDrawCard (fun _ => 0) (initializeSlots (fun _ => 0))) 1 =
          cardsAt (initializeSlots (fun _ => 0)) 1 ++ [{ top with faceUp := true }] ∧
        (∀ j, j ≠ 0 → j ≠ 1 →
          (handleDrawCard (fun _ => 0) (initializeSlots (fun _ => 0)))[j]? =
            (initializeSlots (fun _ => 0))[j]?))) :=
  ⟨by rw [initializeSlots_eq]; rfl, draw_case_analysis (fun _ => 0) _ (by rw [initializeSlots_eq]; rfl)⟩

/-- C9: `handleDragEnd` is not total. With a Tableau target slot (7-13) and a
`sourceCardIndex` at or beyond the source slot's card count, the dragged run
is empty, no guard rejects the out-of-range index, and `canDropOnTableau` is
applied to the undefined `cardsToMove[0]` — the call throws (modelled as
`.error ()`) instead of returning a state. -/
theorem dragEnd_out_of_range_throws (s : List Slot) (i idx t : Nat)
    (h14 : s.length = 14) (hi : i < 14) (ht7 : 7 ≤ t) (ht13 : t ≤ 13) (hne : i ≠ t)
    (hidx : (cardsAt s i).length ≤ idx) :
    handleDragEnd s (some { slotId := some i, cardIndex := idx })
      (some { slotId := some t }) = .error () := by
  obtain ⟨si, hsi⟩ : ∃ x, s[i]? = some x := by
    cases hx : s[i]? with
    | none =>
      rw [List.getElem?_eq_none_iff] at hx
      omega
    | some si => exact ⟨si, rfl⟩
  obtain ⟨st, hst⟩ : ∃ x, s[t]? = some x := by
    cases hx : s[t]? with
    | none =>
      rw [List.getElem?_eq_none_iff] at hx
      omega
    | some st => exact ⟨st, rfl⟩
  have hci : cardsAt s i = si.cards := by
    unfold cardsAt
    rw [hsi]
  have hdrop : si.cards.drop idx = [] :=
    List.drop_eq_nil_of_le (by rw [← hci]; exact hidx)
  have htt : tableauSlots.contains t = true := by
    simp [tableauSlots]
    omega
  unfold handleDragEnd
  dsimp only
  rw [if_neg hne, if_neg (by simp [foundationSlots]; omega), hsi, hst]
  dsimp only
  rw [if_neg (by simp [foundationSlots]; omega), if_pos htt, hdrop]
  rfl

/-- Witness for C9: dragging from the empty Waste (slot 1) at index 0 onto
Tableau slot 7 of the initial deal throws. -/
theorem dragEnd_out_of_range_throws_witness :
    (initializeSlots (fun _ => 0)).length = 14 ∧ (1 : Nat) < 14 ∧ (7 : Nat) ≤ 7 ∧
    (7 : Nat) ≤ 13 ∧ (1 : Nat) ≠ 7 ∧
    (cardsAt (initializeSlots (fun _ => 0)) 1).length ≤ 0 ∧
    handleDragEnd (initializeSlots (fun _ => 0)) (some { slotId := some 1, cardIndex := 0 })
      (some { slotId := some 7 }) = .error () :=
  ⟨by rw [initializeSlots_eq]; rfl, by omega, by omega, by omega, by omega,
    by rw [initializeSlots_eq]; rfl,
    dragEnd_out_of_range_throws _ 1 0 7 (by rw [initializeSlots_eq]; rfl) (by omega)
      (by omega) (by omega) (by omega) (by rw [initializeSlots_eq]; rfl)⟩

/-- C10: validation completeness. For any drag-end whose target slot id is
0, 1 or 2 (source id present and different), no legality check runs: the
move commits unconditionally, with no face-up or top-of-stack hypothesis
about the dragged cards, and every moved card lands on the target with
`faceUp` forced to `true`. The face-up/top-of-stack restriction exists only
in the UI layer's per-card drag flag `cardCanDrag`, which always denies
face-down cards. -/
theorem free_target_applies_unconditionally (s : List Slot) (i idx t : Nat)
    (h14 : s.length = 14) (hi : i < 14) (ht : t = 0 ∨ t = 1 ∨ t = 2) (hne : i ≠ t) :
    (∃ srcSlot tgtSlot, s[i]? = some srcSlot ∧ s[t]? = some tgtSlot ∧
      handleDragEnd s (some { slotId := some i, cardIndex := idx })
        (some { slotId := some t }) =
        .ok (commitMove s srcSlot tgtSlot i idx t) ∧
      cardsAt (commitMove s srcSlot tgtSlot i idx t) t =
        cardsAt s t ++ ((cardsAt s i).drop idx).map fun card => { card with faceUp := true }) ∧
    (∀ draggable slotId cardIndex stackSize,
      cardCanDrag draggable slotId cardIndex stackSize false = false) := by
  obtain ⟨si, hsi⟩ : ∃ x, s[i]? = some x := by
    cases hx : s[i]? with
    | none =>
      rw [List.getElem?_eq_none_iff] at hx
      omega
    | some si => exact ⟨si, rfl⟩
  have htlt : t < s.length := by omega
  obtain ⟨st, hst⟩ : ∃ x, s[t]? = some x := by
    cases hx : s[t]? with
    | none =>
      rw [List.getElem?_eq_none_iff] at hx
      omega
    | some st => exact ⟨st, rfl⟩
  have hci : cardsAt s i = si.cards := by
    unfold cardsAt
    rw [hsi]
  have hct : cardsAt s t = st.cards := by
    unfold cardsAt
    rw [hst]
  refine ⟨⟨si, st, hsi, hst, ?_, ?_⟩, ?_⟩
  · unfold handleDragEnd
    dsimp only
    rw [if_neg hne, if_neg (by simp [foundationSlots]; omega), hsi, hst]
    dsimp only
    rw [if_neg (by simp [foundationSlots]; omega), if_neg (by simp [tableauSlots]; omega)]
  · rw [commitMove_eq, hci, hct]
    unfold cardsAt
    have htlen : t < (s.set i { si with cards :=
        (if 7 ≤ i ∧ i ≤ 13 ∧ 0 < (si.cards.take idx).length then
          flipLastFaceUp (si.cards.take idx)
        else si.cards.take idx) }).length := by
      simpa using htlt
    rw [List.getElem?_set_self htlen]
  · intro draggable slotId cardIndex stackSize
    unfold cardCanDrag
    simp

/-- Witness for C10: dragging the whole 7-card column of Tableau slot 13
onto the Waste (slot 1) of the initial deal commits unconditionally. -/
theorem free_target_applies_unconditionally_witness :
    (initializeSlots (fun _ => 0)).length = 14 ∧ (13 : Nat) < 14 ∧
    ((1 : Nat) = 0 ∨ (1 : Nat) = 1 ∨ (1 : Nat) = 2) ∧ (13 : Nat) ≠ 1 ∧
    ((∃ srcSlot tgtSlot, (initializeSlots (fun _ => 0))[13]? = some srcSlot ∧
      (initializeSlots (fun _ => 0))[1]? = some tgtSlot ∧
      handleDragEnd (initializeSlots (fun _ => 0))
        (some { slotId := some 13, cardIndex := 0 }) (some { slotId := some 1 }) =
        .ok (commitMove (initializeSlots (fun _ => 0)) srcSlot tgtSlot 13 0 1) ∧
      cardsAt (commitMove (initializeSlots (fun _ => 0)) srcSlot tgtSlot 13 0 1) 1 =
        cardsAt (initializeSlots (fun _ => 0)) 1 ++
          ((cardsAt (initializeSlots (fun _ => 0)) 13).drop 0).map fun card =>
            { card with faceUp := true }) ∧
    (∀ draggable slotId cardIndex stackSize,
      cardCanDrag draggable slotId cardIndex stackSize false = false)) :=
  ⟨by rw [initializeSlots_eq]; rfl, by omega, by omega, by omega,
    free_target_applies_unconditionally _ 13 0 1 (by rw [initializeSlots_eq]; rfl)
      (by omega) (by omega) (by omega)⟩

/-- Counterexample to C8 as stated: in the initialized layout (concrete
deal), the Waste slot (id 1) has its drop-accepting affordance disabled
during play — `slotDroppable false` on it evaluates to `false`, not
`true`. -/
theorem waste_not_droppable_cex :
    ((initializeSlots (fun _ => 0))[1]?).map (slotDroppable false) = some false := by
  rw [initializeSlots_eq]
  rfl

/-- C8 amended: the Waste slot (id 1) is NOT a drop target in the UI layer:
for every deal, `isDropTarget = false` on slot 1, so the slot-level
droppable affordance (propagated to every card in the slot) is disabled
whether or not the game is won. (The engine itself, by contrast, applies
any drag-end targeting slot 1 unconditionally — see the validation
completeness theorem.) -/
theorem waste_not_droppable (rnd : Nat → Nat) :
    ((initializeSlots rnd)[1]?).map Slot.isDropTarget = some false ∧
    ∀ hasWon, ((initializeSlots rnd)[1]?).map (slotDroppable hasWon) = some false := by
  rw [initializeSlots_eq]
  refine ⟨rfl, ?_⟩
  intro hasWon
  cases hasWon <;> rfl

theorem flipLastFaceUp_getLast? (l : List Card) (c : Card)
    (h : (flipLastFaceUp l).getLast? = some c) : c.faceUp = true := by
  unfold flipLastFaceUp at h
  split at h
  next heq =>
    rw [heq] at h
    cases h
  next topCard heq =>
    split at h
    next hflip =>
      rw [List.getLast?_concat] at h
      cases h
      rfl
    next hflip =>
      rw [heq] at h
      cases h
      simpa using hflip

theorem faceUpLast_append_singleton : ∀ (l : List Card) (c : Card),
    faceUpLast (l ++ [c]) =
      (l.map fun x => { x with faceUp := false }) ++ [{ c with faceUp := true }]
  | [], c => rfl
  | [a], c => rfl
  | a :: b :: l2, c => by
    have ih := faceUpLast_append_singleton (b :: l2) c
    simp only [List.cons_append, faceUpLast, List.append_eq] at ih ⊢
    rw [ih]
    simp

theorem faceUpLast_getLast? (l : List Card) (c : Card)
    (h : (faceUpLast l).getLast? = some c) : c.faceUp = true := by
  rcases hx : l.getLast? with _ | d
  · rw [List.getLast?_eq_none_iff] at hx
    subst hx
    cases h
  · obtain ⟨ys, rfl⟩ := List.getLast?_eq_some_iff.mp hx
    rw [faceUpLast_append_singleton, List.getLast?_concat] at h
    cases h
    rfl

theorem handleDrawCard_getElem?_ge (rnd : Nat → Nat) (s : List Slot) (j : Nat) (hj : 2 ≤ j) :
    (handleDrawCard rnd s)[j]? = s[j]? := by
  unfold handleDrawCard
  split
  next stockSlot wasteSlot h0 h1 =>
    split
    · split
      · rfl
      · rw [List.getElem?_set_ne (by omega : (1 : Nat) ≠ j),
          List.getElem?_set_ne (by omega : (0 : Nat) ≠ j)]
    · split
      next top heq =>
        rw [List.getElem?_set_ne (by omega : (1 : Nat) ≠ j),
          List.getElem?_set_ne (by omega : (0 : Nat) ≠ j)]
      next => rfl
  next => rfl

theorem commitMove_reveal (s : List Slot) (srcSlot tgtSlot : Slot) (a idx b i : Nat)
    (hsa : s[a]? = some srcSlot) (hsb : s[b]? = some tgtSlot) (hab : a ≠ b)
    (h7 : 7 ≤ i) (h13 : i ≤ 13)
    (hbt : i = b → 0 < (srcSlot.cards.drop idx).length)
    (ih : ∀ c, (cardsAt s i).getLast? = some c → c.faceUp = true)
    (c : Card) (hc : (cardsAt (commitMove s srcSlot tgtSlot a idx b) i).getLast? = some c) :
    c.faceUp = true := by
  rw [commitMove_eq] at hc
  by_cases hib : i = b
  · subst hib
    obtain ⟨hblt, -⟩ := List.getElem?_eq_some_iff.mp hsb
    unfold cardsAt at hc
    rw [List.getElem?_set_self (by simpa using hblt)] at hc
    dsimp only at hc
    have hmovene : (srcSlot.cards.drop idx).map
        (fun card => { card with faceUp := true }) ≠ [] := by
      refine List.length_pos.mp ?_
      rw [List.length_map]
      exact hbt rfl
    rw [List.getLast?_append_of_ne_nil _ hmovene, List.getLast?_map] at hc
    rcases hy : (srcSlot.cards.drop idx).getLast? with _ | d
    · rw [hy] at hc
      cases hc
    · rw [hy] at hc
      cases hc
      rfl
  · by_cases hia : i = a
    · subst hia
      obtain ⟨halt, -⟩ := List.getElem?_eq_some_iff.mp hsa
      unfold cardsAt at hc
      rw [List.getElem?_set_ne (fun hh => hib hh.symm),
        List.getElem?_set_self (by simpa using halt)] at hc
      dsimp only at hc
      split at hc
      next => exact flipLastFaceUp_getLast? _ _ hc
      next hcond =>
        have htake : srcSlot.cards.take idx = [] := by
          rcases hz : srcSlot.cards.take idx with _ | ⟨d, rest⟩
          · rfl
          · exact absurd ⟨h7, h13, by rw [hz]; simp⟩ hcond
        rw [htake] at hc
        cases hc
    · unfold cardsAt at hc
      rw [List.getElem?_set_ne (fun hh => hib hh.symm),
        List.getElem?_set_ne (fun hh => hia hh.symm)] at hc
      exact ih c hc

set_option maxRecDepth 4000 in
/-- C6: reveal invariant. In every reachable state, every non-empty Tableau
slot (ids 7-13) has a face-up topmost card; in particular the drag-end
source flip rule (`flipLastFaceUp`) always leaves a face-up top card. -/
theorem reveal_invariant (s : List Slot) (h : Reachable s) :
    (∀ i, 7 ≤ i → i ≤ 13 → ∀ c, (cardsAt s i).getLast? = some c → c.faceUp = true) ∧
    (∀ cards c, (flipLastFaceUp cards).getLast? = some c → c.faceUp = true) := by
  refine ⟨?_, fun cards c hc => flipLastFaceUp_getLast? cards c hc⟩
  induction h with
  | init rnd =>
    intro i h7 h13 c hc
    rw [initializeSlots_eq] at hc
    interval_cases i <;>
      · simp [cardsAt] at hc
        exact faceUpLast_getLast? _ _ hc
  | draw rnd hr ih =>
    rename_i sprev
    intro i h7 h13 c hc
    unfold cardsAt at hc
    rw [handleDrawCard_getElem?_ge rnd sprev i (by omega)] at hc
    exact ih i h7 h13 c hc
  | drag hr hok ih =>
    rename_i sprev scur source target
    intro i h7 h13 c hc
    unfold handleDragEnd at hok
    dsimp only at hok
    split at hok
    next =>
      cases hok
      exact ih i h7 h13 c hc
    next =>
      cases hok
      exact ih i h7 h13 c hc
    next src tgt =>
      split at hok
      next =>
        cases hok
        exact ih i h7 h13 c hc
      next =>
        cases hok
        exact ih i h7 h13 c hc
      next =>
        split at hok
        next =>
          cases hok
          exact ih i h7 h13 c hc
        next hne =>
          split at hok
          next =>
            cases hok
            exact ih i h7 h13 c hc
          next hff =>
            split at hok
            next srcSlot tgtSlot hg0 hg1 =>
              split at hok
              next hfound =>
                split at hok
                next c0 hone =>
                  split at hok
                  next hcan =>
                    cases hok
                    refine commitMove_reveal _ _ _ _ _ _ i hg0 hg1 hne h7 h13 ?_ (ih i h7 h13) c hc
                    intro hib
                    rw [hone]
                    simp
                  next =>
                    cases hok
                    exact ih i h7 h13 c hc
                next =>
                  cases hok
                  exact ih i h7 h13 c hc
              next hnotfound =>
                split at hok
                next htab =>
                  split at hok
                  next c0 hhead =>
                    split at hok
                    next hcan =>
                      cases hok
                      refine commitMove_reveal _ _ _ _ _ _ i hg0 hg1 hne h7 h13 ?_
                        (ih i h7 h13) c hc
                      intro hib
                      rcases hz : srcSlot.cards.drop src.cardIndex with _ | ⟨d, rest⟩
                      · rw [hz] at hhead
                        cases hhead
                      · simp
                    next =>
                      cases hok
                      exact ih i h7 h13 c hc
                  next => cases hok
                next hnottab =>
                  cases hok
                  refine commitMove_reveal _ _ _ _ _ _ i hg0 hg1 hne h7 h13 ?_
                    (ih i h7 h13) c hc
                  intro hib
                  exfalso
                  apply hnottab
                  subst hib
                  simp [tableauSlots]
                  omega
            next => cases hok

/-- Witness for C6 at the concrete deal dealt by the constant-zero random
stream. -/
theorem reveal_invariant_witness :
    (∀ i, 7 ≤ i → i ≤ 13 → ∀ c,
      (cardsAt (initializeSlots (fun _ => 0)) i).getLast? = some c → c.faceUp = true) ∧
    (∀ cards c, (flipLastFaceUp cards).getLast? = some c → c.faceUp = true) :=
  reveal_invariant _ (Reachable.init (fun _ => 0))

/-- C7: win stickiness. In every reachable session state, a won board
implies the `hasWon` flag is set; the win alert has fired exactly once if
and only if the session is won (so the signal is one-shot); and once
`hasWon` is set every subsequent draw or drag-end event leaves the session
state unchanged (the draw trigger and every slot's drag/drop affordances
are suppressed). -/
theorem win_stickiness (a : AppState) (h : AppReachable a) :
    (checkWinCondition a.slots = true → a.hasWon = true) ∧
    (a.winAlerts = if a.hasWon = true then 1 else 0) ∧
    (∀ e, a.hasWon = true → appStep a e = a) := by
  have hstick : ∀ (b : AppState) (e : AppEvent), b.hasWon = true → appStep b e = b := by
    intro b e hw
    cases e with
    | draw rnd =>
      unfold appStep
      dsimp only
      rw [if_pos hw]
    | dragEnd source target =>
      unfold appStep
      dsimp only
      rw [if_pos hw]
  have hinv : (checkWinCondition a.slots = true → a.hasWon = true) ∧
      (a.winAlerts = if a.hasWon = true then 1 else 0) := by
    induction h with
    | init rnd =>
      refine ⟨?_, rfl⟩
      intro hwin
      exfalso
      have hfalse : checkWinCondition (initializeSlots rnd) = false := by
        rw [initializeSlots_eq]
        simp [checkWinCondition]
      rw [show (initApp rnd).slots = initializeSlots rnd from rfl, hfalse] at hwin
      cases hwin
    | step e hr ih =>
      rename_i b
      by_cases hw : b.hasWon = true
      · rw [hstick b e hw]
        exact ih
      · have hwf : b.hasWon = false := by
          cases hx : b.hasWon
          · rfl
          · exact absurd hx hw
        have key : ∀ s' : List Slot,
            (checkWinCondition (winEffect { b with slots := s' }).slots = true →
              (winEffect { b with slots := s' }).hasWon = true) ∧
            ((winEffect { b with slots := s' }).winAlerts =
              if (winEffect { b with slots := s' }).hasWon = true then 1 else 0) := by
          intro s'
          unfold winEffect
          dsimp only
          split
          next hcond =>
            refine ⟨fun _ => rfl, ?_⟩
            have h0 : b.winAlerts = 0 := by
              rw [ih.2, if_neg]
              simp [hwf]
            rw [h0]
            simp
          next hcond =>
            have hcheck : checkWinCondition s' = false := by
              cases hx : checkWinCondition s'
              · rfl
              · exfalso
                apply hcond
                rw [hwf, hx]
                rfl
            refine ⟨?_, ?_⟩
            · intro hwin
              rw [hcheck] at hwin
              cases hwin
            · simp [ih.2, hwf]
        cases e with
        | draw rnd =>
          have happ : appStep b (.draw rnd) =
              winEffect { b with slots := handleDrawCard rnd b.slots } := by
            unfold appStep
            dsimp only
            rw [if_neg hw]
          rw [happ]
          exact key _
        | dragEnd source target =>
          cases hok : handleDragEnd b.slots source target with
          | ok s2 =>
            have happ : appStep b (.dragEnd source target) =
                winEffect { b with slots := s2 } := by
              unfold appStep
              dsimp only
              rw [if_neg hw, hok]
            rw [happ]
            exact key _
          | error u =>
            have happ : appStep b (.dragEnd source target) = b := by
              unfold appStep
              dsimp only
              rw [if_neg hw, hok]
            rw [happ]
            exact ih
  exact ⟨hinv.1, hinv.2, fun e hw => hstick a e hw⟩

/-- Witness for C7 at the freshly initialized session. -/
theorem win_stickiness_witness :
    (checkWinCondition (initApp (fun _ => 0)).slots = true →
      (initApp (fun _ => 0)).hasWon = true) ∧
    ((initApp (fun _ => 0)).winAlerts = if (initApp (fun _ => 0)).hasWon = true then 1 else 0) ∧
    (∀ e, (initApp (fun _ => 0)).hasWon = true → appStep (initApp (fun _ => 0)) e = initApp (fun _ => 0)) :=
  win_stickiness _ (AppReachable.init (fun _ => 0))
